import Mathlib

/-!
Verification of the `LpPool` liquidity-pool engine (`src/main.rs`).

Modelling conventions:
* `u64` values are natural numbers below `2 ^ 64`; the arithmetic of the
  source (`+`, `-`, `*` on `u64`) is modelled with two's-complement
  wraparound (`wadd`, `wsub`, `wmul`), the release-mode semantics of the
  source language.  Integer division cannot wrap and is plain `Nat`
  division; `Nat` division by zero yields `0` where the source would
  abort, so every theorem touching `calculate_fee_percentage` assumes
  `liquidity_target ≠ 0`, which the constructor guarantees.
* The source routes the mint and withdrawal ratios through `f64`
  intermediates.  Those are modelled exactly: a finite binary64 value is
  a significand-exponent pair, `roundM` is IEEE-754 binary64 rounding
  (round to nearest, ties to even) of a positive fraction, and
  `F64.inf` models the infinity produced by dividing a positive value by
  `0.0`.
-/

namespace LiquidityPool

/-- The number of values of the `u64` type, `2 ^ 64`. -/
def U : ℕ := 2 ^ 64

/-- Wrapping u64 addition. -/
def wadd (a b : ℕ) : ℕ := (a + b) % U

/-- Wrapping u64 multiplication. -/
def wmul (a b : ℕ) : ℕ := (a * b) % U

/-- Wrapping u64 subtraction (both operands below `U`). -/
def wsub (a b : ℕ) : ℕ := (a + U - b) % U

/-- Binary length of `n` via explicit fuel, so that the kernel can
evaluate it: `bits n = ⌊log₂ n⌋ + 1` for `n ≥ 1`, and `bits 0 = 0`. -/
def bitsAux : ℕ → ℕ → ℕ
  | 0, _ => 0
  | fuel + 1, n => if n = 0 then 0 else bitsAux fuel (n / 2) + 1

/-- Binary length of a natural number. -/
def bits (n : ℕ) : ℕ := bitsAux n n

/-- The fraction `n / d`, scaled by `2 ^ (-e)`, as a numerator-denominator
pair of naturals. -/
def scaled (n d : ℕ) (e : ℤ) : ℕ × ℕ :=
  if 0 ≤ e then (n, d * 2 ^ e.toNat) else (n * 2 ^ (-e).toNat, d)

/-- The pair `(2 ^ max e 0, 2 ^ max (-e) 0)`: multiplying a numerator by
the first component and a denominator by the second scales a fraction by
`2 ^ e`. -/
def pow2split (e : ℤ) : ℕ × ℕ := (2 ^ e.toNat, 2 ^ (-e).toNat)

/-- IEEE-754 binary64 rounding (round to nearest, ties to even) of the
positive fraction `n / d` (`n, d ≥ 1`), with unbounded exponent range: the
exponent `e` is chosen so that `n / d / 2 ^ e` lies in `[2 ^ 52, 2 ^ 53)`,
that scaled value is rounded to an integer significand (ties to the even
significand), and the result is the significand-exponent pair — its value
is the first component times `2` to the second.  Every value reached in
this development lies far inside the binary64 normal range, so overflow,
underflow and subnormal values cannot arise. -/
def roundM (n d : ℕ) : ℕ × ℤ :=
  let e0 : ℤ := (bits n : ℤ) - (bits d : ℤ) - 52
  let p0 := scaled n d e0
  let e : ℤ := if p0.1 < 2 ^ 52 * p0.2 then e0 - 1 else e0
  let p := scaled n d e
  let m0 := p.1 / p.2
  let r := p.1 % p.2
  let m : ℕ :=
    if 2 * r < p.2 then m0
    else if p.2 < 2 * r then m0 + 1
    else if m0 % 2 = 0 then m0 else m0 + 1
  (m, e)

/-- The binary64 values arising in the pool computations: nonnegative
finite values `m * 2 ^ e` and positive infinity (a positive value divided
by `0.0`).  Zero is `val 0 e`. -/
inductive F64 where
  | val (m : ℕ) (e : ℤ)
  | inf
deriving DecidableEq, Repr

/-- The finite value whose significand-exponent pair `roundM` returned. -/
def fromRound (p : ℕ × ℤ) : F64 := .val p.1 p.2

/-- The `x as f64` conversion of a `u64` value: round to nearest. -/
def toF (n : ℕ) : F64 := if n = 0 then .val 0 0 else fromRound (roundM n 1)

/-- binary64 multiplication on the values above: the exact product
`(m₁ * 2 ^ e₁) * (m₂ * 2 ^ e₂)` is rounded to the nearest binary64
value.  `0.0 × ∞` is NaN in IEEE-754 and is mapped to zero because its
only consumer here is the `as u64` cast, which sends NaN to `0`; no pool
operation reaches it. -/
def fmul : F64 → F64 → F64
  | .val m1 e1, .val m2 e2 =>
      if m1 * m2 = 0 then .val 0 0
      else
        let s := pow2split (e1 + e2)
        fromRound (roundM (m1 * m2 * s.1) s.2)
  | .val m _, .inf => if m = 0 then .val 0 0 else .inf
  | .inf, .val m _ => if m = 0 then .val 0 0 else .inf
  | .inf, .inf => .inf

/-- binary64 division on the values above: the exact quotient
`(m₁ * 2 ^ e₁) / (m₂ * 2 ^ e₂)` is rounded to the nearest binary64
value.  A positive value over `0.0` is infinity; `0.0 / 0.0` is NaN,
mapped to zero as in `fmul` (unreached by the pool operations, whose
divisors are positive whenever the dividend is). -/
def fdiv : F64 → F64 → F64
  | .val m1 e1, .val m2 e2 =>
      if m2 = 0 then (if m1 = 0 then .val 0 0 else .inf)
      else if m1 = 0 then .val 0 0
      else
        let s := pow2split (e1 - e2)
        fromRound (roundM (m1 * s.1) (m2 * s.2))
  | .inf, .val _ _ => .inf
  | .val _ _, .inf => .val 0 0
  | .inf, .inf => .val 0 0

/-- The `x as u64` cast of an `f64` value: truncate toward zero,
saturating at the ends of the `u64` range (NaN casts to `0`). -/
def truncU64 : F64 → ℕ
  | .val m e =>
      if 0 ≤ e then min (m * 2 ^ e.toNat) (U - 1) else min (m / 2 ^ (-e).toNat) (U - 1)
  | .inf => U - 1

/-- The error type of the pool operations. -/
inductive Errors where
  | PropertyMustBeGreaterThanZero
  | FeeMaxMustBeGreaterThanFeeMin
  | InsufficientLiquidity
deriving DecidableEq, Repr

/-- Decidable equality on `Except`, for evaluating the operations at
concrete inputs. -/
def exceptDecEq {ε α : Type} [DecidableEq ε] [DecidableEq α] :
    DecidableEq (Except ε α)
  | .error e, .error f =>
      if h : e = f then .isTrue (by rw [h]) else .isFalse (by simp [h])
  | .error _, .ok _ => .isFalse (by simp)
  | .ok _, .error _ => .isFalse (by simp)
  | .ok a, .ok b =>
      if h : a = b then .isTrue (by rw [h]) else .isFalse (by simp [h])

instance {ε α : Type} [DecidableEq ε] [DecidableEq α] : DecidableEq (Except ε α) :=
  exceptDecEq

/-- The pool state: two reserves, the outstanding claim-token supply and
the four configuration values fixed at construction. -/
structure LpPool where
  token_reserve : ℕ
  staked_token_reserve : ℕ
  lp_token_supply : ℕ
  price : ℕ
  fee_min : ℕ
  fee_max : ℕ
  liquidity_target : ℕ
deriving DecidableEq, Repr

/-- Model of `LpPool::init`. -/
def init (price fee_min fee_max liquidity_target : ℕ) : Except Errors LpPool :=
  if price = 0 ∨ fee_min = 0 ∨ fee_max = 0 ∨ liquidity_target = 0 then
    .error .PropertyMustBeGreaterThanZero
  else if fee_max ≤ fee_min then
    .error .FeeMaxMustBeGreaterThanFeeMin
  else
    .ok ⟨0, 0, 0, price, fee_min, fee_max, liquidity_target⟩

/-- Model of `LpPool::calculate_fee_percentage`:
`fee_min + ((token_reserve * 100 / liquidity_target) * (fee_max - fee_min)) / 100`. -/
def calculate_fee_percentage (p : LpPool) : ℕ :=
  let liquidity_ratio := wmul p.token_reserve 100 / p.liquidity_target
  wadd p.fee_min (wmul liquidity_ratio (wsub p.fee_max p.fee_min) / 100)

/-- Model of `LpPool::add_liquidity`.  The reserve is incremented before the mint
ratio `amount as f64 * (lp_token_supply as f64 / token_reserve as f64)`
is computed and truncated. -/
def add_liquidity (p : LpPool) (amount : ℕ) : Except Errors ℕ × LpPool :=
  if amount = 0 then (.error .PropertyMustBeGreaterThanZero, p)
  else
    let token_reserve := wadd p.token_reserve amount
    let liquidity_minted :=
      if p.lp_token_supply = 0 then amount
      else truncU64 (fmul (toF amount) (fdiv (toF p.lp_token_supply) (toF token_reserve)))
    (.ok liquidity_minted,
      { p with token_reserve := token_reserve,
               lp_token_supply := wadd p.lp_token_supply liquidity_minted })

/-- The token amount `remove_liquidity` computes:
`((lp_token_amount * token_reserve) as f64 / lp_token_supply as f64) as u64`
(the inner product is a wrapping `u64` multiplication). -/
def removeTokenAmount (p : LpPool) (lp_token_amount : ℕ) : ℕ :=
  truncU64 (fdiv (toF (wmul lp_token_amount p.token_reserve)) (toF p.lp_token_supply))

/-- The staked-token amount `remove_liquidity` computes. -/
def removeStakedAmount (p : LpPool) (lp_token_amount : ℕ) : ℕ :=
  truncU64 (fdiv (toF (wmul lp_token_amount p.staked_token_reserve)) (toF p.lp_token_supply))

/-- Model of `LpPool::remove_liquidity`. -/
def remove_liquidity (p : LpPool) (lp_token_amount : ℕ) :
    Except Errors (ℕ × ℕ) × LpPool :=
  if lp_token_amount = 0 then (.error .PropertyMustBeGreaterThanZero, p)
  else if p.lp_token_supply < lp_token_amount then (.error .InsufficientLiquidity, p)
  else
    let token_amount := removeTokenAmount p lp_token_amount
    let staked_token_amount := removeStakedAmount p lp_token_amount
    if p.token_reserve < token_amount ∨ p.staked_token_reserve < staked_token_amount then
      (.error .InsufficientLiquidity, p)
    else
      (.ok (token_amount, staked_token_amount),
        { p with token_reserve := wsub p.token_reserve token_amount,
                 staked_token_reserve := wsub p.staked_token_reserve staked_token_amount,
                 lp_token_supply := wsub p.lp_token_supply lp_token_amount })

/-- The gross token amount of `swap`: `staked_token_amount * price`. -/
def swapTokenAmount (p : LpPool) (staked_token_amount : ℕ) : ℕ :=
  wmul staked_token_amount p.price

/-- The fee of `swap`: `(token_amount * fee_percentage) / 100`. -/
def swapFee (p : LpPool) (staked_token_amount : ℕ) : ℕ :=
  wmul (swapTokenAmount p staked_token_amount) (calculate_fee_percentage p) / 100

/-- Model of `LpPool::swap`. -/
def swap (p : LpPool) (staked_token_amount : ℕ) : Except Errors ℕ × LpPool :=
  if staked_token_amount = 0 then (.error .PropertyMustBeGreaterThanZero, p)
  else
    let token_amount := swapTokenAmount p staked_token_amount
    let fee := swapFee p staked_token_amount
    if p.token_reserve < token_amount then (.error .InsufficientLiquidity, p)
    else
      (.ok (wsub token_amount fee),
        { p with token_reserve := wsub p.token_reserve token_amount,
                 staked_token_reserve := wadd p.staked_token_reserve staked_token_amount })

/-- Run a sequence of deposits from a state, keeping the final state only
when every deposit succeeded. -/
def depositChain (p : LpPool) : List ℕ → Option LpPool
  | [] => some p
  | a :: rest =>
      match add_liquidity p a with
      | (.ok _, q) => depositChain q rest
      | (.error _, _) => none

/-- Deposit amounts `1, 1, 2, 4, …, 2 ^ 52, 1`: after the first deposit
each further deposit mints zero claim tokens, so they drive the reserve to
`2 ^ 53 + 1` while the supply stays at `1`. -/
def c8DepositAmounts : List ℕ := 1 :: ((List.range 53).map fun k => 2 ^ k) ++ [1]

lemma U_eq : U = 18446744073709551616 := by norm_num [U]

lemma wadd_eq_of_lt {a b : ℕ} (h : a + b < U) : wadd a b = a + b := by
  unfold wadd; exact Nat.mod_eq_of_lt h

lemma wmul_eq_of_lt {a b : ℕ} (h : a * b < U) : wmul a b = a * b := by
  unfold wmul; exact Nat.mod_eq_of_lt h

lemma wsub_eq_of_le {a b : ℕ} (hle : b ≤ a) (ha : a < U) : wsub a b = a - b := by
  unfold wsub
  have h1 : a + U - b = U + (a - b) := by omega
  rw [h1, Nat.add_mod_left, Nat.mod_eq_of_lt (by omega)]

/-- The fee-curve value written without wraparound, under bounds that rule
wraparound out. -/
lemma calc_fee_eq (p : LpPool)
    (hminmax : p.fee_min ≤ p.fee_max) (hmax : p.fee_max < U)
    (h100 : p.token_reserve * 100 < U)
    (hprod : p.token_reserve * 100 / p.liquidity_target * (p.fee_max - p.fee_min) < U)
    (hsum : p.fee_min
        + p.token_reserve * 100 / p.liquidity_target * (p.fee_max - p.fee_min) / 100 < U) :
    calculate_fee_percentage p
      = p.fee_min + p.token_reserve * 100 / p.liquidity_target * (p.fee_max - p.fee_min) / 100 := by
  simp only [calculate_fee_percentage]
  rw [wmul_eq_of_lt h100, wsub_eq_of_le hminmax hmax, wmul_eq_of_lt hprod, wadd_eq_of_lt hsum]

/-- C5.  Construction fails with `PropertyMustBeGreaterThanZero` exactly
when one of the four arguments is zero (checked first), fails with
`FeeMaxMustBeGreaterThanFeeMin` exactly when no argument is zero and
`fee_min ≥ fee_max`, and for every other argument quadruple succeeds with
both reserves and the supply at `0` and the configuration equal to the
arguments. -/
theorem c5_init_classification (price fee_min fee_max liquidity_target : ℕ) :
    (init price fee_min fee_max liquidity_target = .error .PropertyMustBeGreaterThanZero
      ↔ price = 0 ∨ fee_min = 0 ∨ fee_max = 0 ∨ liquidity_target = 0)
  ∧ (init price fee_min fee_max liquidity_target = .error .FeeMaxMustBeGreaterThanFeeMin
      ↔ (price ≠ 0 ∧ fee_min ≠ 0 ∧ fee_max ≠ 0 ∧ liquidity_target ≠ 0) ∧ fee_max ≤ fee_min)
  ∧ (init price fee_min fee_max liquidity_target
        = .ok ⟨0, 0, 0, price, fee_min, fee_max, liquidity_target⟩
      ↔ (price ≠ 0 ∧ fee_min ≠ 0 ∧ fee_max ≠ 0 ∧ liquidity_target ≠ 0) ∧ fee_min < fee_max) := by
  unfold init
  split_ifs with h1 h2 <;> refine ⟨?_, ?_, ?_⟩ <;> simp_all <;> omega

/-- C6.  `remove_liquidity` returns `PropertyMustBeGreaterThanZero`
exactly when `lp_token_amount = 0`, returns `InsufficientLiquidity`
exactly when `lp_token_amount` is positive and either exceeds the supply
or one of the two computed proportional amounts exceeds its reserve, and
succeeds with the pair of computed amounts in every other case. -/
theorem c6_remove_liquidity_error_classification (p : LpPool) (lp_token_amount : ℕ) :
    ((remove_liquidity p lp_token_amount).1 = .error .PropertyMustBeGreaterThanZero
      ↔ lp_token_amount = 0)
  ∧ ((remove_liquidity p lp_token_amount).1 = .error .InsufficientLiquidity
      ↔ lp_token_amount ≠ 0 ∧ (p.lp_token_supply < lp_token_amount
          ∨ p.token_reserve < removeTokenAmount p lp_token_amount
          ∨ p.staked_token_reserve < removeStakedAmount p lp_token_amount))
  ∧ ((remove_liquidity p lp_token_amount).1
        = .ok (removeTokenAmount p lp_token_amount, removeStakedAmount p lp_token_amount)
      ↔ lp_token_amount ≠ 0 ∧ lp_token_amount ≤ p.lp_token_supply
          ∧ removeTokenAmount p lp_token_amount ≤ p.token_reserve
          ∧ removeStakedAmount p lp_token_amount ≤ p.staked_token_reserve) := by
  simp only [remove_liquidity]
  split_ifs with h1 h2 h3 <;> refine ⟨?_, ?_, ?_⟩ <;> simp_all <;> omega

/-- C7.  Whenever `add_liquidity`, `remove_liquidity` or `swap` returns an
error, the returned pool state is exactly the pre-call state: every
validation failure short-circuits before any state mutation. -/
theorem c7_errors_leave_state_unchanged (p : LpPool)
    (amount lp_token_amount staked_token_amount : ℕ) :
    (∀ e, (add_liquidity p amount).1 = .error e → (add_liquidity p amount).2 = p)
  ∧ (∀ e, (remove_liquidity p lp_token_amount).1 = .error e
      → (remove_liquidity p lp_token_amount).2 = p)
  ∧ (∀ e, (swap p staked_token_amount).1 = .error e → (swap p staked_token_amount).2 = p) := by
  refine ⟨?_, ?_, ?_⟩ <;> intro e h
  · simp only [add_liquidity] at h ⊢
    split_ifs at h ⊢ with h0
    rfl
  · simp only [remove_liquidity] at h ⊢
    split_ifs at h ⊢ with h1 h2 h3
    · rfl
    · rfl
    · rfl
  · simp only [swap] at h ⊢
    split_ifs at h ⊢ with h1 h2
    · rfl
    · rfl

/-- C1.  Amended swap specification: under the claim's hypotheses
(positive input, gross amount within the pre-swap reserve) together with
the construction invariant on `liquidity_target` and side conditions
ruling out `u64` overflow (the fee multiplication stays below `2 ^ 64`,
the computed fee does not exceed the gross amount, and the staked-reserve
update does not overflow), `swap` succeeds and returns the gross amount
minus the fee, the fee equals `token_amount * fee_percentage / 100` with
the fee percentage computed from the pre-swap state, `token_reserve`
decreases by the gross amount, `staked_token_reserve` increases by the
input, and `swap` fails with `InsufficientLiquidity` exactly when the
gross amount exceeds the pre-swap reserve. -/
theorem c1_swap_success_spec (p : LpPool) (staked_token_amount : ℕ)
    (hpos : 0 < staked_token_amount)
    (hliq : staked_token_amount * p.price ≤ p.token_reserve)
    (hres : p.token_reserve < U)
    (htarget : p.liquidity_target ≠ 0)
    (hfeemul : staked_token_amount * p.price * calculate_fee_percentage p < U)
    (hfee : swapFee p staked_token_amount ≤ staked_token_amount * p.price)
    (hstak : p.staked_token_reserve + staked_token_amount < U) :
    swap p staked_token_amount
        = (.ok (staked_token_amount * p.price - swapFee p staked_token_amount),
           { p with token_reserve := p.token_reserve - staked_token_amount * p.price,
                    staked_token_reserve := p.staked_token_reserve + staked_token_amount })
  ∧ swapFee p staked_token_amount
      = staked_token_amount * p.price * calculate_fee_percentage p / 100
  ∧ ((swap p staked_token_amount).1 = .error .InsufficientLiquidity
      ↔ p.token_reserve < staked_token_amount * p.price) := by
  have htokU : staked_token_amount * p.price < U := lt_of_le_of_lt hliq hres
  have htok : swapTokenAmount p staked_token_amount = staked_token_amount * p.price := by
    simp only [swapTokenAmount]; exact wmul_eq_of_lt htokU
  have hfeeEq : swapFee p staked_token_amount
      = staked_token_amount * p.price * calculate_fee_percentage p / 100 := by
    simp only [swapFee, htok]
    rw [wmul_eq_of_lt hfeemul]
  have hmain : swap p staked_token_amount
      = (.ok (staked_token_amount * p.price - swapFee p staked_token_amount),
         { p with token_reserve := p.token_reserve - staked_token_amount * p.price,
                  staked_token_reserve := p.staked_token_reserve + staked_token_amount }) := by
    simp only [swap]
    rw [if_neg (by omega : ¬ staked_token_amount = 0), htok,
      if_neg (not_lt.mpr hliq),
      wsub_eq_of_le hfee htokU, wsub_eq_of_le hliq hres, wadd_eq_of_lt hstak]
  refine ⟨hmain, hfeeEq, ?_⟩
  constructor
  · intro hbad
    rw [hmain] at hbad
    simp at hbad
  · intro hbad
    exact absurd hbad (not_lt.mpr hliq)

/-- Witness for C1 at the swap test vector of the source: a fully
concrete pool on which every hypothesis is discharged by computation. -/
theorem c1_swap_success_spec_witness :
    swap ⟨1000, 100, 0, 100, 1, 2, 1000⟩ 10 = (.ok 980, ⟨0, 110, 0, 100, 1, 2, 1000⟩) := by
  have h := (c1_swap_success_spec ⟨1000, 100, 0, 100, 1, 2, 1000⟩ 10 (by decide) (by decide)
    (by decide) (by decide) (by decide) (by decide) (by decide)).1
  rw [h]
  decide

/-- C1 as stated fails: on a pool with valid configuration
`(price, fee_min, fee_max, target) = (1, 1, 200, 10)` and reserve 10, the
fee percentage is 200, the fee (20) exceeds the gross amount (10), the
`u64` subtraction wraps, and the value returned by `swap` is not
`token_amount - fee`. -/
theorem c1_swap_negative_net_counterexample :
    10 * 1 ≤ (⟨10, 0, 10, 1, 1, 200, 10⟩ : LpPool).token_reserve
  ∧ (swap ⟨10, 0, 10, 1, 1, 200, 10⟩ 10).1 = .ok (U - 10)
  ∧ ((U - 10 : ℕ) : ℤ)
      ≠ (10 * 1 : ℤ)
        - ((10 * 1 * calculate_fee_percentage ⟨10, 0, 10, 1, 1, 200, 10⟩ / 100 : ℕ) : ℤ) := by
  refine ⟨by decide, by decide, by decide⟩

/-- C4.  Amended fee-curve specification: for a pool satisfying the
construction invariants, under side conditions ruling out `u64` overflow
(`token_reserve * 100`, the inner product and the final sum all stay
below `2 ^ 64`), the fee percentage equals
`fee_min + (token_reserve * 100 / liquidity_target) * (fee_max - fee_min) / 100`
with both truncations in that order; it is `fee_min` at zero reserve,
`fee_max` when the reserve equals the target, at least `fee_max` beyond
the target and strictly above `fee_max` at twice the target (no clamp). -/
theorem c4_fee_curve_formula (p : LpPool)
    (htarget : p.liquidity_target ≠ 0)
    (hminmax : p.fee_min < p.fee_max)
    (hmax : p.fee_max < U)
    (h100 : p.token_reserve * 100 < U)
    (hprod : p.token_reserve * 100 / p.liquidity_target * (p.fee_max - p.fee_min) < U)
    (hsum : p.fee_min
        + p.token_reserve * 100 / p.liquidity_target * (p.fee_max - p.fee_min) / 100 < U) :
    calculate_fee_percentage p
        = p.fee_min + p.token_reserve * 100 / p.liquidity_target * (p.fee_max - p.fee_min) / 100
  ∧ (p.token_reserve = 0 → calculate_fee_percentage p = p.fee_min)
  ∧ (p.token_reserve = p.liquidity_target → calculate_fee_percentage p = p.fee_max)
  ∧ (p.liquidity_target ≤ p.token_reserve → p.fee_max ≤ calculate_fee_percentage p)
  ∧ (2 * p.liquidity_target ≤ p.token_reserve → p.fee_max < calculate_fee_percentage p) := by
  have htpos : 0 < p.liquidity_target := Nat.pos_of_ne_zero htarget
  have hfe := calc_fee_eq p hminmax.le hmax h100 hprod hsum
  have hcancel : p.liquidity_target * 100 / p.liquidity_target = 100 :=
    Nat.mul_div_cancel_left 100 htpos
  refine ⟨hfe, ?_, ?_, ?_, ?_⟩
  · intro h0
    rw [hfe, h0]
    simp
  · intro heq
    rw [hfe, heq, hcancel, Nat.mul_div_cancel_left _ (by norm_num : (0:ℕ) < 100)]
    omega
  · intro hge
    rw [hfe]
    have h1 : 100 ≤ p.token_reserve * 100 / p.liquidity_target := by
      calc 100 = p.liquidity_target * 100 / p.liquidity_target := hcancel.symm
        _ ≤ p.token_reserve * 100 / p.liquidity_target :=
            Nat.div_le_div_right (Nat.mul_le_mul_right 100 hge)
    have h2 : p.fee_max - p.fee_min
        ≤ p.token_reserve * 100 / p.liquidity_target * (p.fee_max - p.fee_min) / 100 := by
      calc p.fee_max - p.fee_min
          = 100 * (p.fee_max - p.fee_min) / 100 :=
            (Nat.mul_div_cancel_left _ (by norm_num : (0:ℕ) < 100)).symm
        _ ≤ _ := Nat.div_le_div_right (Nat.mul_le_mul_right _ h1)
    omega
  · intro hge
    rw [hfe]
    have h1 : 200 ≤ p.token_reserve * 100 / p.liquidity_target := by
      have h200 : p.liquidity_target * 200 / p.liquidity_target = 200 :=
        Nat.mul_div_cancel_left 200 htpos
      have hle : p.liquidity_target * 200 ≤ p.token_reserve * 100 := by
        have := Nat.mul_le_mul_right 100 hge
        omega
      calc 200 = p.liquidity_target * 200 / p.liquidity_target := h200.symm
        _ ≤ p.token_reserve * 100 / p.liquidity_target := Nat.div_le_div_right hle
    have h2 : 2 * (p.fee_max - p.fee_min)
        ≤ p.token_reserve * 100 / p.liquidity_target * (p.fee_max - p.fee_min) / 100 := by
      have h3 : 200 * (p.fee_max - p.fee_min) / 100 = 2 * (p.fee_max - p.fee_min) := by
        omega
      calc 2 * (p.fee_max - p.fee_min) = 200 * (p.fee_max - p.fee_min) / 100 := h3.symm
        _ ≤ _ := Nat.div_le_div_right (Nat.mul_le_mul_right _ h1)
    omega

/-- Witness for C4 at the fee test vector of the source. -/
theorem c4_fee_curve_formula_witness :
    calculate_fee_percentage ⟨1000, 500, 100, 10, 1, 5, 2000⟩ = 3 := by
  have h := (c4_fee_curve_formula ⟨1000, 500, 100, 10, 1, 5, 2000⟩ (by decide) (by decide)
    (by decide) (by decide) (by decide) (by decide)).1
  rw [h]
  decide

/-- C4 as stated fails at a pool satisfying the construction invariants
whose reserve makes `token_reserve * 100` wrap modulo `2 ^ 64`: the code
computes `fee_min` while the claimed formula gives `fee_min + 2 ^ 62`. -/
theorem c4_fee_curve_wrap_counterexample :
    calculate_fee_percentage ⟨2 ^ 62, 0, 0, 1, 1, 2, 1⟩ = 1
  ∧ (1 : ℕ) + 2 ^ 62 * 100 / 1 * (2 - 1) / 100 = 1 + 2 ^ 62
  ∧ calculate_fee_percentage ⟨2 ^ 62, 0, 0, 1, 1, 2, 1⟩
      ≠ 1 + 2 ^ 62 * 100 / 1 * (2 - 1) / 100 := by
  refine ⟨by decide, by decide, by decide⟩

/-- C10.  Amended: for a pool satisfying the construction invariants
whose `fee_max` is at most 100 and whose pre-swap reserve is at most the
liquidity target (so the fee percentage cannot exceed 100), under the
swap validations and no-overflow side conditions, the computed fee is at
most the gross token amount, so the net value cannot underflow. -/
theorem c10_fee_le_gross (p : LpPool) (staked_token_amount : ℕ)
    (htarget : p.liquidity_target ≠ 0)
    (hminmax : p.fee_min < p.fee_max)
    (hfm : p.fee_max ≤ 100)
    (hbelow : p.token_reserve ≤ p.liquidity_target)
    (h100 : p.token_reserve * 100 < U)
    (hliq : staked_token_amount * p.price ≤ p.token_reserve)
    (hfeemul : staked_token_amount * p.price * calculate_fee_percentage p < U) :
    swapFee p staked_token_amount ≤ swapTokenAmount p staked_token_amount := by
  have htpos : 0 < p.liquidity_target := Nat.pos_of_ne_zero htarget
  have hres : p.token_reserve < U := by
    have h1 : p.token_reserve * 1 ≤ p.token_reserve * 100 :=
      Nat.mul_le_mul_left _ (by norm_num)
    omega
  have hmax : p.fee_max < U := by
    rw [U_eq]; omega
  have hratio : p.token_reserve * 100 / p.liquidity_target ≤ 100 := by
    have h1 : p.token_reserve * 100 ≤ p.liquidity_target * 100 :=
      Nat.mul_le_mul_right 100 hbelow
    have h2 : p.liquidity_target * 100 / p.liquidity_target = 100 :=
      Nat.mul_div_cancel_left 100 htpos
    calc p.token_reserve * 100 / p.liquidity_target
        ≤ p.liquidity_target * 100 / p.liquidity_target := Nat.div_le_div_right h1
      _ = 100 := h2
  have hdelta : p.fee_max - p.fee_min ≤ 100 := by omega
  have hprod : p.token_reserve * 100 / p.liquidity_target * (p.fee_max - p.fee_min) < U := by
    have h1 : p.token_reserve * 100 / p.liquidity_target * (p.fee_max - p.fee_min)
        ≤ 100 * 100 := Nat.mul_le_mul hratio hdelta
    rw [U_eq]; omega
  have hquot : p.token_reserve * 100 / p.liquidity_target * (p.fee_max - p.fee_min) / 100
      ≤ p.fee_max - p.fee_min := by
    have h4 : p.token_reserve * 100 / p.liquidity_target * (p.fee_max - p.fee_min)
        ≤ 100 * (p.fee_max - p.fee_min) := Nat.mul_le_mul_right _ hratio
    have h5 : p.token_reserve * 100 / p.liquidity_target * (p.fee_max - p.fee_min) / 100
        ≤ 100 * (p.fee_max - p.fee_min) / 100 := Nat.div_le_div_right h4
    rwa [Nat.mul_div_cancel_left _ (by norm_num : (0:ℕ) < 100)] at h5
  have hsum : p.fee_min
      + p.token_reserve * 100 / p.liquidity_target * (p.fee_max - p.fee_min) / 100 < U := by
    rw [U_eq]; omega
  have hpct : calculate_fee_percentage p ≤ 100 := by
    rw [calc_fee_eq p hminmax.le hmax h100 hprod hsum]
    omega
  have htokU : staked_token_amount * p.price < U := lt_of_le_of_lt hliq hres
  have htok : swapTokenAmount p staked_token_amount = staked_token_amount * p.price := by
    simp only [swapTokenAmount]; exact wmul_eq_of_lt htokU
  have hfeeEq : swapFee p staked_token_amount
      = staked_token_amount * p.price * calculate_fee_percentage p / 100 := by
    simp only [swapFee, htok]
    rw [wmul_eq_of_lt hfeemul]
  rw [hfeeEq, htok]
  calc staked_token_amount * p.price * calculate_fee_percentage p / 100
      ≤ staked_token_amount * p.price * 100 / 100 :=
        Nat.div_le_div_right (Nat.mul_le_mul_left _ hpct)
    _ = staked_token_amount * p.price := Nat.mul_div_cancel _ (by norm_num)

/-- Witness for C10 at the swap test vector of the source. -/
theorem c10_fee_le_gross_witness :
    swapFee ⟨1000, 100, 0, 100, 1, 2, 1000⟩ 10
      ≤ swapTokenAmount ⟨1000, 100, 0, 100, 1, 2, 1000⟩ 10 :=
  c10_fee_le_gross ⟨1000, 100, 0, 100, 1, 2, 1000⟩ 10 (by decide) (by decide) (by decide)
    (by decide) (by decide) (by decide) (by decide)

/-- C10 as stated fails on a pool reachable through the public API: after
`init(1, 1, 200, 10)` and a deposit of 10 the fee percentage is 200, so
swapping 10 computes a fee of 20 against a gross amount of 10. -/
theorem c10_fee_exceeds_gross_counterexample :
    init 1 1 200 10 = .ok ⟨0, 0, 0, 1, 1, 200, 10⟩
  ∧ add_liquidity ⟨0, 0, 0, 1, 1, 200, 10⟩ 10 = (.ok 10, ⟨10, 0, 10, 1, 1, 200, 10⟩)
  ∧ swapTokenAmount ⟨10, 0, 10, 1, 1, 200, 10⟩ 10 = 10
  ∧ swapFee ⟨10, 0, 10, 1, 1, 200, 10⟩ 10 = 20
  ∧ ¬ swapFee ⟨10, 0, 10, 1, 1, 200, 10⟩ 10
      ≤ swapTokenAmount ⟨10, 0, 10, 1, 1, 200, 10⟩ 10 := by
  refine ⟨by decide, by decide, by decide, by decide, by decide⟩

set_option maxRecDepth 8000 in
/-- C2 evaluated at a failing input: on the pool with `token_reserve = 0`,
`staked_token_reserve = 5` and `lp_token_supply = 2 ^ 53 + 1`, a deposit
of 1 mints `2 ^ 53` — the `f64` conversion of the supply rounds
`2 ^ 53 + 1` to `2 ^ 53` — while the claimed exact formula
`amount * lp_token_supply / token_reserve_after` gives `2 ^ 53 + 1`. -/
theorem c2_add_liquidity_float_divergence :
    add_liquidity ⟨0, 5, 2 ^ 53 + 1, 1, 1, 2, 1000⟩ 1
        = (.ok (2 ^ 53), ⟨1, 5, 2 ^ 53 + 1 + 2 ^ 53, 1, 1, 2, 1000⟩)
  ∧ (2 ^ 53 : ℕ) ≠ 1 * (2 ^ 53 + 1) / (0 + 1) := by
  refine ⟨by decide, by decide⟩

set_option maxRecDepth 8000 in
/-- C3 evaluated at a failing input: withdrawing 1 of 1 claim tokens from
a pool with `token_reserve = 2 ^ 53 + 1` returns `2 ^ 53` and leaves a
token reserve of 1 behind with the supply at zero, while the claimed
exact formula `lp_amount * token_reserve / lp_token_supply` gives
`2 ^ 53 + 1` and would drain the reserve. -/
theorem c3_remove_liquidity_float_divergence :
    remove_liquidity ⟨2 ^ 53 + 1, 0, 1, 1, 1, 2, 1000⟩ 1
        = (.ok (2 ^ 53, 0), ⟨1, 0, 0, 1, 1, 2, 1000⟩)
  ∧ (2 ^ 53 : ℕ) ≠ 1 * (2 ^ 53 + 1) / 1 := by
  refine ⟨by decide, by decide⟩

set_option maxRecDepth 8000 in
/-- C8 evaluated on a violating trace: from `init(1, 1, 2, 1)`, the
deposits `1, 1, 2, 4, …, 2 ^ 52, 1` all succeed and lead to the state
`(token_reserve, staked_token_reserve, lp_token_supply) = (2 ^ 53 + 1, 0, 1)`;
withdrawing the entire supply of 1 then succeeds but returns only
`2 ^ 53`, leaving `lp_token_supply = 0` with `token_reserve = 1 ≠ 0`. -/
theorem c8_invariant_violation_trace :
    init 1 1 2 1 = .ok ⟨0, 0, 0, 1, 1, 2, 1⟩
  ∧ depositChain ⟨0, 0, 0, 1, 1, 2, 1⟩ c8DepositAmounts = some ⟨2 ^ 53 + 1, 0, 1, 1, 1, 2, 1⟩
  ∧ remove_liquidity ⟨2 ^ 53 + 1, 0, 1, 1, 1, 2, 1⟩ 1
        = (.ok (2 ^ 53, 0), ⟨1, 0, 0, 1, 1, 2, 1⟩)
  ∧ (⟨1, 0, 0, 1, 1, 2, 1⟩ : LpPool).lp_token_supply = 0
  ∧ (⟨1, 0, 0, 1, 1, 2, 1⟩ : LpPool).token_reserve ≠ 0 := by
  refine ⟨by decide, by decide, by decide, rfl, by decide⟩

/-- C9 evaluated at a failing input: a sole depositor putting `2 ^ 32`
into a fresh pool mints `2 ^ 32` claim tokens, but withdrawing exactly
those mints returns `(0, 0)` — the wrapping `u64` product
`lp_amount * token_reserve = 2 ^ 64` reduces to 0 — instead of the
deposited amount, so the round trip is not bounded by truncation loss. -/
theorem c9_roundtrip_equality_failure :
    init 1 1 2 1000 = .ok ⟨0, 0, 0, 1, 1, 2, 1000⟩
  ∧ add_liquidity ⟨0, 0, 0, 1, 1, 2, 1000⟩ (2 ^ 32)
        = (.ok (2 ^ 32), ⟨2 ^ 32, 0, 2 ^ 32, 1, 1, 2, 1000⟩)
  ∧ remove_liquidity ⟨2 ^ 32, 0, 2 ^ 32, 1, 1, 2, 1000⟩ (2 ^ 32)
        = (.ok (0, 0), ⟨2 ^ 32, 0, 0, 1, 1, 2, 1000⟩)
  ∧ (0 : ℕ) ≠ 2 ^ 32 := by
  refine ⟨by decide, by decide, by decide, by decide⟩

end LiquidityPool
